import Mathlib

/-!
Verification of the foomo/soap SOAP envelope codec and dispatch core.

The definitions below are shallow embeddings of the Go sources:
  soap.go               : Envelope / Body / Fault model, Body.UnmarshalXML
  client.go (part_003)  : Client.Call response processing, multipart
                          extraction, namespace translation
  server.go             : Server.ServeHTTP routing and response writing

XML is modelled at the token level (the level at which the Go code
operates through encoding/xml Decoder tokens); raw wire bytes are
modelled as List Char where the code performs byte-level substitution.
-/

namespace Soap

/-- Version tags, from soap.go. -/
def SoapVersion11 : String := "1.1"

/-- Version tags, from soap.go. -/
def SoapVersion12 : String := "1.2"

/-- SOAP 1.1 envelope namespace URI, from soap.go. -/
def NamespaceSoap11 : String := "http://schemas.xmlsoap.org/soap/envelope/"

/-- SOAP 1.2 envelope namespace URI, from soap.go. -/
def NamespaceSoap12 : String := "http://www.w3.org/2003/05/soap-envelope"

/-- Byte form of the SOAP 1.1 namespace URI (bNamespaceSoap11 in soap.go). -/
def bNamespaceSoap11 : List Char := NamespaceSoap11.toList

/-- Byte form of the SOAP 1.2 namespace URI (bNamespaceSoap12 in soap.go). -/
def bNamespaceSoap12 : List Char := NamespaceSoap12.toList

/-- Left-to-right, non-overlapping replacement of every occurrence of
`pat` by `repl`, the behaviour of Go bytes.ReplaceAll for a non-empty
pattern. -/
def replaceAll (pat repl : List Char) (s : List Char) : List Char :=
  match s with
  | [] => []
  | c :: t =>
    if pat.isPrefixOf (c :: t) ∧ 0 < pat.length then
      repl ++ replaceAll pat repl (List.drop pat.length (c :: t))
    else
      c :: replaceAll pat repl t
termination_by s.length
decreasing_by
  · simp only [List.length_drop, List.length_cons]
    omega
  · simp

/-- replaceSoap12to11 from client.go: rewrite every occurrence of the
SOAP 1.2 namespace URI into the SOAP 1.1 URI. -/
def replaceSoap12to11 (data : List Char) : List Char :=
  replaceAll bNamespaceSoap12 bNamespaceSoap11 data

/-- replaceSoap11to12 from client.go: rewrite every occurrence of the
SOAP 1.1 namespace URI into the SOAP 1.2 URI. -/
def replaceSoap11to12 (data : List Char) : List Char :=
  replaceAll bNamespaceSoap11 bNamespaceSoap12 data

/-- Decidable substring containment on char lists. -/
def containsSeq (pat : List Char) (s : List Char) : Bool :=
  pat.isPrefixOf s ||
    match s with
    | [] => false
    | _ :: t => containsSeq pat t

theorem replaceAll_nil (pat repl : List Char) : replaceAll pat repl [] = [] := by
  simp [replaceAll]

theorem replaceAll_pos (pat repl : List Char) (c : Char) (t : List Char)
    (h : pat.isPrefixOf (c :: t)) (hl : 0 < pat.length) :
    replaceAll pat repl (c :: t)
      = repl ++ replaceAll pat repl (List.drop pat.length (c :: t)) := by
  rw [replaceAll]
  simp [h, hl]

theorem replaceAll_neg (pat repl : List Char) (c : Char) (t : List Char)
    (h : ¬ (pat.isPrefixOf (c :: t) ∧ 0 < pat.length)) :
    replaceAll pat repl (c :: t) = c :: replaceAll pat repl t := by
  rw [replaceAll]
  simp only [if_neg h]

theorem length_bNamespaceSoap11 : bNamespaceSoap11.length = 41 := rfl

theorem length_bNamespaceSoap12 : bNamespaceSoap12.length = 39 := rfl

theorem containsSeq_false_tail {pat : List Char} {c : Char} {t : List Char}
    (h : containsSeq pat (c :: t) = false) : containsSeq pat t = false := by
  rw [containsSeq.eq_def] at h
  simp only [Bool.or_eq_false_iff] at h
  exact h.2

theorem containsSeq_false_append {pat : List Char} (a : List Char) {b : List Char}
    (h : containsSeq pat (a ++ b) = false) : containsSeq pat b = false := by
  induction a with
  | nil => exact h
  | cons c a ih =>
    exact ih (containsSeq_false_tail h)

theorem containsSeq_of_isPrefixOf {pat s : List Char}
    (h : pat.isPrefixOf s = true) : containsSeq pat s = true := by
  rw [containsSeq.eq_def, h, Bool.true_or]

theorem nil_isPrefixOf (t : List Char) : ([] : List Char).isPrefixOf t = true := by
  cases t <;> rfl

theorem isPrefixOf_append_of_length_le {p q x : List Char}
    (h : p.isPrefixOf (q ++ x) = true) (hl : p.length ≤ q.length) :
    p.isPrefixOf q = true := by
  rw [List.isPrefixOf_iff_prefix, List.prefix_iff_eq_take] at h ⊢
  rwa [List.take_append_of_le_length hl] at h

theorem bNamespaceSoap12_no_border :
    ∀ j, j < 39 → 0 < j →
      ¬ (bNamespaceSoap12.drop j = bNamespaceSoap12.take (39 - j)) := by
  decide

theorem replaceAll_prepend_pat (pat repl x : List Char) (h : 0 < pat.length) :
    replaceAll pat repl (pat ++ x) = repl ++ replaceAll pat repl x := by
  match pat, h with
  | p0 :: ps, _ =>
    have hpfx : (p0 :: ps).isPrefixOf ((p0 :: ps) ++ x) = true :=
      List.isPrefixOf_iff_prefix.mpr (List.prefix_append _ _)
    rw [List.cons_append] at hpfx ⊢
    rw [replaceAll_pos _ _ _ _ hpfx (by simp)]
    congr 1
    rw [← List.cons_append, List.drop_left]

/-- Core inversion result behind the namespace-translation round trip:
on any byte sequence free of the SOAP 1.2 namespace URI, translating
1.1 to 1.2 and back is the identity; and any proper suffix of the 1.2
URI that appears as a prefix of the translated bytes was already a
prefix of the original bytes. -/
theorem replace_roundtrip_aux :
    ∀ N s, List.length s ≤ N →
      (containsSeq bNamespaceSoap12 s = false →
        replaceSoap12to11 (replaceSoap11to12 s) = s)
      ∧ (∀ j, 0 < j → j < 39 →
          containsSeq bNamespaceSoap12 s = false →
          (bNamespaceSoap12.drop j).isPrefixOf (replaceSoap11to12 s) = true →
          (bNamespaceSoap12.drop j).isPrefixOf s = true) := by
  intro N
  induction N with
  | zero =>
    intro s hs
    have hnil : s = [] := List.length_eq_zero.mp (Nat.le_zero.mp hs)
    subst hnil
    constructor
    · intro _
      simp [replaceSoap11to12, replaceSoap12to11, replaceAll_nil]
    · intro j hj0 hj39 _ hpre
      rw [replaceSoap11to12, replaceAll_nil] at hpre
      have hlen : (bNamespaceSoap12.drop j).length = 39 - j := by
        rw [List.length_drop, length_bNamespaceSoap12]
      have : (bNamespaceSoap12.drop j) = [] := by
        rw [List.isPrefixOf_iff_prefix] at hpre
        exact List.prefix_nil.mp hpre
      rw [this] at hlen
      simp at hlen
      omega
  | succ N ih =>
    intro s hs
    match s with
    | [] =>
      constructor
      · intro _
        simp [replaceSoap11to12, replaceSoap12to11, replaceAll_nil]
      · intro j hj0 hj39 _ hpre
        rw [replaceSoap11to12, replaceAll_nil] at hpre
        have hlen : (bNamespaceSoap12.drop j).length = 39 - j := by
          rw [List.length_drop, length_bNamespaceSoap12]
        have : (bNamespaceSoap12.drop j) = [] := by
          rw [List.isPrefixOf_iff_prefix] at hpre
          exact List.prefix_nil.mp hpre
        rw [this] at hlen
        simp at hlen
        omega
    | c :: t =>
      have htlen : List.length t ≤ N := by
        simp only [List.length_cons] at hs
        omega
      by_cases hpre : bNamespaceSoap11.isPrefixOf (c :: t) = true
      · -- the 1.1 URI is a prefix of s: the translation rewrites it
        have hspl : bNamespaceSoap11 ++ (c :: t).drop 41 = c :: t := by
          have := List.prefix_iff_eq_append.mp (List.isPrefixOf_iff_prefix.mp hpre)
          rwa [length_bNamespaceSoap11] at this
        have hrlen : List.length ((c :: t).drop 41) ≤ N := by
          rw [List.length_drop]
          simp only [List.length_cons] at hs ⊢
          omega
        have hf : replaceSoap11to12 (c :: t)
            = bNamespaceSoap12 ++ replaceSoap11to12 ((c :: t).drop 41) := by
          rw [replaceSoap11to12,
            replaceAll_pos _ _ _ _ hpre (by rw [length_bNamespaceSoap11]; omega),
            length_bNamespaceSoap11]
          rfl
        constructor
        · intro hcont
          have hcontr : containsSeq bNamespaceSoap12 ((c :: t).drop 41) = false := by
            refine containsSeq_false_append bNamespaceSoap11 ?_
            rw [hspl]
            exact hcont
          have hg : replaceSoap12to11
                (bNamespaceSoap12 ++ replaceSoap11to12 ((c :: t).drop 41))
              = bNamespaceSoap11
                  ++ replaceSoap12to11 (replaceSoap11to12 ((c :: t).drop 41)) := by
            rw [replaceSoap12to11,
              replaceAll_prepend_pat _ _ _ (by rw [length_bNamespaceSoap12]; omega)]
            rfl
          rw [hf, hg, (ih _ hrlen).1 hcontr, hspl]
        · intro j hj0 hj39 _ hp
          exfalso
          rw [hf] at hp
          have hlen : (bNamespaceSoap12.drop j).length ≤ bNamespaceSoap12.length := by
            rw [List.length_drop]
            omega
          have h2 := isPrefixOf_append_of_length_le hp hlen
          have h3 : bNamespaceSoap12.drop j
              = bNamespaceSoap12.take ((bNamespaceSoap12.drop j).length) :=
            List.prefix_iff_eq_take.mp (List.isPrefixOf_iff_prefix.mp h2)
          rw [List.length_drop, length_bNamespaceSoap12] at h3
          exact bNamespaceSoap12_no_border j hj39 hj0 h3
      · -- the 1.1 URI is not a prefix of s: the head byte is copied
        have hnotand : ¬ (bNamespaceSoap11.isPrefixOf (c :: t) = true
            ∧ 0 < bNamespaceSoap11.length) := fun hand => hpre hand.1
        have hf : replaceSoap11to12 (c :: t) = c :: replaceSoap11to12 t := by
          rw [replaceSoap11to12, replaceAll_neg _ _ _ _ hnotand]
          rfl
        have h0 : (0 : Nat) < bNamespaceSoap12.length := by
          rw [length_bNamespaceSoap12]
          omega
        have hdrop0 : bNamespaceSoap12
            = bNamespaceSoap12.get ⟨0, h0⟩ :: bNamespaceSoap12.drop 1 := by
          conv_lhs => rw [← List.drop_zero bNamespaceSoap12]
          exact List.drop_eq_getElem_cons h0
        constructor
        · intro hcont
          have hcontt := containsSeq_false_tail hcont
          have hnq : ¬ (bNamespaceSoap12.isPrefixOf (c :: replaceSoap11to12 t) = true
              ∧ 0 < bNamespaceSoap12.length) := by
            rintro ⟨hq, -⟩
            rw [hdrop0] at hq
            simp only [List.isPrefixOf, Bool.and_eq_true, beq_iff_eq] at hq
            have h1 : (bNamespaceSoap12.drop 1).isPrefixOf t = true :=
              (ih t htlen).2 1 (by omega) (by omega) hcontt hq.2
            have h2 : bNamespaceSoap12.isPrefixOf (c :: t) = true := by
              rw [hdrop0]
              simp only [List.isPrefixOf, Bool.and_eq_true, beq_iff_eq]
              exact ⟨hq.1, h1⟩
            have h3 := containsSeq_of_isPrefixOf h2
            exact Bool.noConfusion (h3.symm.trans hcont)
          rw [hf, replaceSoap12to11, replaceAll_neg _ _ _ _ hnq]
          have : replaceAll bNamespaceSoap12 bNamespaceSoap11 (replaceSoap11to12 t)
              = replaceSoap12to11 (replaceSoap11to12 t) := rfl
          rw [this, (ih t htlen).1 hcontt]
        · intro j hj0 hj39 hcont hp
          rw [hf] at hp
          have hjlt : j < bNamespaceSoap12.length := by
            rw [length_bNamespaceSoap12]
            omega
          have hdropj : bNamespaceSoap12.drop j
              = bNamespaceSoap12.get ⟨j, hjlt⟩ :: bNamespaceSoap12.drop (j + 1) :=
            List.drop_eq_getElem_cons hjlt
          rw [hdropj] at hp
          simp only [List.isPrefixOf, Bool.and_eq_true, beq_iff_eq] at hp
          have hσt : (bNamespaceSoap12.drop (j + 1)).isPrefixOf t = true := by
            by_cases hj1 : j + 1 < 39
            · exact (ih t htlen).2 (j + 1) (by omega) hj1
                (containsSeq_false_tail hcont) hp.2
            · have hnil : bNamespaceSoap12.drop (j + 1) = [] := by
                apply List.drop_eq_nil_of_le
                rw [length_bNamespaceSoap12]
                omega
              rw [hnil]
              exact nil_isPrefixOf t
          rw [hdropj]
          simp only [List.isPrefixOf, Bool.and_eq_true, beq_iff_eq]
          exact ⟨hp.1, hσt⟩

theorem replaceAll_of_not_contains (pat repl : List Char) :
    ∀ s, containsSeq pat s = false → replaceAll pat repl s = s := by
  intro s
  induction s with
  | nil => intro _; exact replaceAll_nil pat repl
  | cons c t iht =>
    intro h
    rw [containsSeq.eq_def] at h
    simp only [Bool.or_eq_false_iff] at h
    rw [replaceAll_neg pat repl c t (fun hand => by
      have := hand.1
      rw [h.1] at this
      exact Bool.noConfusion this)]
    rw [iht h.2]

theorem replaceSoap12to11_on_ns12 :
    replaceSoap12to11 bNamespaceSoap12 = bNamespaceSoap11 := by
  rw [replaceSoap12to11]
  conv_lhs =>
    rw [show replaceAll bNamespaceSoap12 bNamespaceSoap11 bNamespaceSoap12
        = replaceAll bNamespaceSoap12 bNamespaceSoap11 (bNamespaceSoap12 ++ []) by
      rw [List.append_nil]]
  rw [replaceAll_prepend_pat _ _ _ (by rw [length_bNamespaceSoap12]; omega),
    replaceAll_nil, List.append_nil]

/-- C4 counterexample: the byte sequence consisting of the SOAP 1.2
namespace URI itself is not reproduced by translating 1.1 to 1.2 and
then 1.2 to 1.1 — the first translation leaves it untouched and the
second rewrites it to the 1.1 URI. -/
theorem c4_translation_not_involutive_on_ns12 :
    replaceSoap12to11 (replaceSoap11to12 bNamespaceSoap12) ≠ bNamespaceSoap12 := by
  have h1 : replaceSoap11to12 bNamespaceSoap12 = bNamespaceSoap12 :=
    replaceAll_of_not_contains _ _ _ (by decide)
  rw [h1, replaceSoap12to11_on_ns12]
  decide

/-- C4 (amended): for every byte sequence that does not contain the
SOAP 1.2 namespace URI as a substring, applying replaceSoap11to12 and
then replaceSoap12to11 reproduces the sequence exactly. -/
theorem c4_translation_roundtrip (b : List Char)
    (h : containsSeq bNamespaceSoap12 b = false) :
    replaceSoap12to11 (replaceSoap11to12 b) = b :=
  (replace_roundtrip_aux b.length b le_rfl).1 h

/-- Witness for c4_translation_roundtrip at the SOAP 1.1 URI bytes. -/
theorem c4_translation_roundtrip_witness :
    containsSeq bNamespaceSoap12 bNamespaceSoap11 = false
      ∧ replaceSoap12to11 (replaceSoap11to12 bNamespaceSoap11) = bNamespaceSoap11 :=
  ⟨by decide, c4_translation_roundtrip bNamespaceSoap11 (by decide)⟩

/-!
Namespace normalization call sites (claim C5).

The client normalizes incoming bytes unconditionally
(client.go Call: rawBody = replaceSoap12to11(rawBody)), while the
server normalizes the POSTed bytes only when its configured SoapVersion
is 1.2 (server.go ServeHTTP: if s.SoapVersion == SoapVersion12
\x7b soapRequestBytes = replaceSoap12to11(soapRequestBytes) \x7d).
-/

/-- The normalization the client applies to received response bytes
right before decode, from Client.Call in client.go. -/
def clientCallNormalizeIncoming (rawBody : List Char) : List Char :=
  replaceSoap12to11 rawBody

/-- The normalization Server.ServeHTTP applies to the POSTed request
bytes, from server.go: guarded by the configured SoapVersion. -/
def serverNormalizeIncoming (soapVersion : String) (soapRequestBytes : List Char) :
    List Char :=
  if soapVersion = SoapVersion12 then replaceSoap12to11 soapRequestBytes
  else soapRequestBytes

/-- C5 counterexample: the server does not normalize unconditionally —
with SoapVersion 1.1 configured and a request containing the SOAP 1.2
URI, ServeHTTP leaves the bytes untouched instead of translating them. -/
theorem c5_server_normalization_not_unconditional :
    serverNormalizeIncoming SoapVersion11 bNamespaceSoap12
        = bNamespaceSoap12
      ∧ serverNormalizeIncoming SoapVersion11 bNamespaceSoap12
        ≠ replaceSoap12to11 bNamespaceSoap12 := by
  have hid : serverNormalizeIncoming SoapVersion11 bNamespaceSoap12
      = bNamespaceSoap12 := by
    rw [serverNormalizeIncoming, if_neg (by decide)]
  refine ⟨hid, ?_⟩
  rw [hid, replaceSoap12to11_on_ns12]
  decide

/-- C5 (amended): the client applies the 1.2-to-1.1 normalization to
received bytes unconditionally right before decode; the server applies
it to POSTed bytes only when its configured SoapVersion is 1.2, and
leaves the bytes unchanged under any other configured version. -/
theorem c5_normalization_call_sites :
    (∀ raw : List Char, clientCallNormalizeIncoming raw = replaceSoap12to11 raw)
      ∧ (∀ raw : List Char,
          serverNormalizeIncoming SoapVersion12 raw = replaceSoap12to11 raw)
      ∧ (∀ (v : String) (raw : List Char), v ≠ SoapVersion12 →
          serverNormalizeIncoming v raw = raw) := by
  refine ⟨fun raw => rfl, fun raw => ?_, fun v raw hv => ?_⟩
  · rw [serverNormalizeIncoming, if_pos rfl]
  · rw [serverNormalizeIncoming, if_neg hv]

/-- Witness for c5_normalization_call_sites at SoapVersion11 and the
1.2 URI bytes. -/
theorem c5_normalization_call_sites_witness :
    SoapVersion11 ≠ SoapVersion12
      ∧ serverNormalizeIncoming SoapVersion11 bNamespaceSoap12 = bNamespaceSoap12 :=
  ⟨by decide, c5_normalization_call_sites.2.2 SoapVersion11 bNamespaceSoap12 (by decide)⟩

/-!
XML token model.

The Go code reads XML through encoding/xml Decoder tokens; we model a
document as the list of its start-element, end-element and character
data tokens.
-/

/-- A qualified XML name (xml.Name in Go): namespace plus local part. -/
structure XName where
  space : String
  localName : String
  deriving DecidableEq, Repr

/-- One XML token as delivered by the Go xml.Decoder. -/
inductive Tok where
  | start (name : XName)
  | endE (name : XName)
  | text (s : String)
  deriving DecidableEq, Repr

/-- Whether a token is character data (ignored by the Body loop). -/
def Tok.isText : Tok → Bool
  | .text _ => true
  | _ => false

/-- The namespace tag of a token; character data carries none. -/
def Tok.space : Tok → String
  | .start n => n.space
  | .endE n => n.space
  | .text _ => ""

/-- Qualified name of the Envelope element (soap.go struct tags). -/
def envelopeName : XName := ⟨NamespaceSoap11, "Envelope"⟩

/-- Qualified name of the Header element (soap.go struct tags). -/
def headerName : XName := ⟨NamespaceSoap11, "Header"⟩

/-- Qualified name of the Body element (soap.go struct tags). -/
def bodyName : XName := ⟨NamespaceSoap11, "Body"⟩

/-- Qualified name of the Fault element, the one Body.UnmarshalXML
compares against (soap.go: Space == the 1.1 URI and Local == Fault). -/
def faultName : XName := ⟨NamespaceSoap11, "Fault"⟩

/-- The Fault payload type from soap.go. -/
structure Fault where
  code : String := ""
  string : String := ""
  actor : String := ""
  detail : String := ""
  deriving DecidableEq, Repr

/-- Set one Fault field by the local tag name of a child element,
mirroring how encoding/xml fills the faultcode, faultstring,
faultactor and detail fields of the Fault struct. -/
def faultSetField (f : Fault) (lname v : String) : Fault :=
  if lname = "faultcode" then { f with code := v }
  else if lname = "faultstring" then { f with string := v }
  else if lname = "faultactor" then { f with actor := v }
  else if lname = "detail" then { f with detail := v }
  else f

/-- Child-element loop of decoding a Fault value: reads flat children
of the Fault element until its end tag, filling the matching fields.
Models d.DecodeElement(b.Fault, se) in Body.UnmarshalXML. -/
def decodeFaultLoop (f : Fault) : List Tok → Option (Fault × List Tok)
  | [] => none
  | .endE _ :: r => some (f, r)
  | .text _ :: r => decodeFaultLoop f r
  | .start n :: .text v :: .endE _ :: r2 =>
    decodeFaultLoop (faultSetField f n.localName v) r2
  | .start n :: .endE _ :: r2 =>
    decodeFaultLoop (faultSetField f n.localName "") r2
  | .start _ :: _ => none

/-- Decode a Fault whose start element has already been consumed. -/
def decodeFault (ts : List Tok) : Option (Fault × List Tok) :=
  decodeFaultLoop {} ts

/-- Consume tokens up to and including the end element matching an
already-consumed start element, ignoring the subtree, with `d` open
nested elements. Models decoding into the dummyContent struct. -/
def skipDepth (d : Nat) : List Tok → Option (List Tok)
  | [] => none
  | .start _ :: r => skipDepth (d + 1) r
  | .text _ :: r => skipDepth d r
  | .endE _ :: r =>
    match d with
    | 0 => some r
    | d + 1 => skipDepth d r

/-- The outcome of Body.UnmarshalXML: the three fields of Body that
the method assigns (Fault, Content, SOAPBodyContentType). The content
is `some v` once the caller-supplied destination has been filled. -/
structure BodyDecoded (α : Type) where
  fault : Option Fault
  content : Option α
  soapBodyContentType : String
  deriving DecidableEq, Repr

/-- The protocol-shape error text from Body.UnmarshalXML in soap.go. -/
def multipleElementsErr : String :=
  "Found multiple elements inside SOAP body; not wrapped-document/literal WS-I compliant"

/-- The nil-destination error text from Body.UnmarshalXML in soap.go. -/
def nilContentErr : String := "Content must be a pointer to a struct"

/-- The Body token loop of soap.go once one child element has been
consumed (the consumed flag is true): character data is skipped, an
end element terminates successfully, and a further start element is
the multiple-elements protocol-shape error. -/
def bodyLoopConsumed (st : BodyDecoded α) : List Tok → Except String (BodyDecoded α)
  | [] => .error "unexpected EOF inside SOAP body"
  | .text _ :: r => bodyLoopConsumed st r
  | .endE _ :: _ => .ok st
  | .start _ :: _ => .error multipleElementsErr

/-- The Body token loop of soap.go before any child element has been
consumed (the consumed flag is false): the first start element is
discriminated on its qualified name — the Fault name in the SOAP 1.1
namespace decodes a Fault and clears Content, anything else decodes
into the caller-supplied destination through `dec` and records the
local name as SOAPBodyContentType — after which the loop continues in
the consumed state. -/
def unmarshalBodyTokens (dec : XName → List Tok → Option (α × List Tok)) :
    List Tok → Except String (BodyDecoded α)
  | [] => .error "unexpected EOF inside SOAP body"
  | .text _ :: r => unmarshalBodyTokens dec r
  | .endE _ :: _ => .ok ⟨none, none, ""⟩
  | .start n :: r =>
    if n = faultName then
      match decodeFault r with
      | none => .error "could not decode SOAP fault"
      | some (f, r2) => bodyLoopConsumed ⟨some f, none, ""⟩ r2
    else
      match dec n r with
      | none => .error "could not decode SOAP body content"
      | some (v, r2) => bodyLoopConsumed ⟨none, some v, n.localName⟩ r2

/-- Body.UnmarshalXML from soap.go: guard against a nil Content
destination, then run the token loop on the Body children. -/
def unmarshalBody (destNil : Bool) (dec : XName → List Tok → Option (α × List Tok))
    (ts : List Tok) : Except String (BodyDecoded α) :=
  if destNil then .error nilContentErr
  else unmarshalBodyTokens dec ts

/-- Walking the children of the Envelope element during xml.Unmarshal:
at depth 0 a Body start element hands over to Body.UnmarshalXML, any
other child (such as Header) is skipped as an opaque subtree, and the
Envelope end element finishes with an untouched Body. -/
def decodeEnvelopeChildren (destNil : Bool)
    (dec : XName → List Tok → Option (α × List Tok)) (depth : Nat) :
    List Tok → Except String (BodyDecoded α)
  | [] => .error "unexpected EOF inside Envelope"
  | .text _ :: r => decodeEnvelopeChildren destNil dec depth r
  | .start n :: r =>
    match depth with
    | 0 =>
      if n = bodyName then unmarshalBody destNil dec r
      else decodeEnvelopeChildren destNil dec 1 r
    | d + 1 => decodeEnvelopeChildren destNil dec (d + 2) r
  | .endE _ :: r =>
    match depth with
    | 0 => .ok ⟨none, none, ""⟩
    | 1 => decodeEnvelopeChildren destNil dec 0 r
    | d + 2 => decodeEnvelopeChildren destNil dec (d + 1) r

/-- xml.Unmarshal of an Envelope: leading character data is skipped,
the root element must be the 1.1-namespace Envelope, then its children
are walked. -/
def decodeEnvelope (destNil : Bool)
    (dec : XName → List Tok → Option (α × List Tok)) :
    List Tok → Except String (BodyDecoded α)
  | [] => .error "unexpected EOF"
  | .text _ :: r => decodeEnvelope destNil dec r
  | .start n :: r =>
    if n = envelopeName then decodeEnvelopeChildren destNil dec 0 r
    else .error "expected element type Envelope"
  | .endE _ :: _ => .error "unexpected end element"

/-- Marshalling Envelope\x7bBody\x7bContent: request\x7d\x7d in Client.Call:
the Envelope wraps an empty Header and a Body holding precisely the
content element. -/
def encodeEnvelope (content : List Tok) : List Tok :=
  [.start envelopeName, .start headerName, .endE headerName, .start bodyName]
    ++ content ++ [.endE bodyName, .endE envelopeName]

theorem bodyLoopConsumed_skip_text {α} (st : BodyDecoded α) (lead : List Tok)
    (h : ∀ x ∈ lead, x.isText = true) (rest : List Tok) :
    bodyLoopConsumed st (lead ++ rest) = bodyLoopConsumed st rest := by
  induction lead with
  | nil => rfl
  | cons x lead ih =>
    match x, h x (by simp) with
    | .text s, _ =>
      rw [List.cons_append, bodyLoopConsumed]
      exact ih (fun y hy => h y (by simp [hy]))

theorem unmarshalBodyTokens_skip_text {α}
    (dec : XName → List Tok → Option (α × List Tok)) (lead : List Tok)
    (h : ∀ x ∈ lead, x.isText = true) (rest : List Tok) :
    unmarshalBodyTokens dec (lead ++ rest) = unmarshalBodyTokens dec rest := by
  induction lead with
  | nil => rfl
  | cons x lead ih =>
    match x, h x (by simp) with
    | .text s, _ =>
      rw [List.cons_append, unmarshalBodyTokens]
      exact ih (fun y hy => h y (by simp [hy]))

/-- C1: in Body.UnmarshalXML, the first start element among the Body
children decides the outcome — the qualified Fault name of the SOAP
1.1 namespace sets the Fault field to the decoded fault and discards
the supplied destination (Content nil, SOAPBodyContentType left
empty); any other name decodes into the destination and records the
element local name as SOAPBodyContentType. -/
theorem c1_first_element_discriminates {α}
    (dec : XName → List Tok → Option (α × List Tok))
    (lead : List Tok) (hlead : ∀ x ∈ lead, x.isText = true) (n : XName)
    (rest : List Tok) :
    (n = faultName →
      ∀ (f : Fault) (rest2 lead2 : List Tok) (e : XName) (tail2 : List Tok),
        decodeFault rest = some (f, rest2) →
        (∀ x ∈ lead2, x.isText = true) →
        rest2 = lead2 ++ Tok.endE e :: tail2 →
        unmarshalBody false dec (lead ++ Tok.start n :: rest)
          = .ok ⟨some f, none, ""⟩)
    ∧ (n ≠ faultName →
      ∀ (v : α) (rest2 lead2 : List Tok) (e : XName) (tail2 : List Tok),
        dec n rest = some (v, rest2) →
        (∀ x ∈ lead2, x.isText = true) →
        rest2 = lead2 ++ Tok.endE e :: tail2 →
        unmarshalBody false dec (lead ++ Tok.start n :: rest)
          = .ok ⟨none, some v, n.localName⟩) := by
  constructor
  · intro hn f rest2 lead2 e tail2 hdf hl2 hr2
    rw [unmarshalBody, if_neg (by simp),
      unmarshalBodyTokens_skip_text dec lead hlead, unmarshalBodyTokens,
      if_pos hn, hdf]
    show bodyLoopConsumed ⟨some f, none, ""⟩ rest2 = _
    rw [hr2, bodyLoopConsumed_skip_text _ lead2 hl2]
    rfl
  · intro hn v rest2 lead2 e tail2 hdec hl2 hr2
    rw [unmarshalBody, if_neg (by simp),
      unmarshalBodyTokens_skip_text dec lead hlead, unmarshalBodyTokens,
      if_neg hn, hdec]
    show bodyLoopConsumed ⟨none, some v, n.localName⟩ rest2 = _
    rw [hr2, bodyLoopConsumed_skip_text _ lead2 hl2]
    rfl

/-- Witness for c1_first_element_discriminates: a Fault body and a
content body, both with one character-data token before the element. -/
theorem c1_first_element_discriminates_witness :
    ((faultName = faultName)
      ∧ decodeFault
          [Tok.start ⟨"", "faultstring"⟩, Tok.text "boom",
            Tok.endE ⟨"", "faultstring"⟩, Tok.endE faultName, Tok.endE bodyName]
          = some (⟨"", "boom", "", ""⟩, [Tok.endE bodyName])
      ∧ unmarshalBody false (fun (_ : XName) (_ : List Tok) => (none : Option (Unit × List Tok)))
          [Tok.text " ", Tok.start faultName, Tok.start ⟨"", "faultstring"⟩,
            Tok.text "boom", Tok.endE ⟨"", "faultstring"⟩, Tok.endE faultName,
            Tok.endE bodyName]
          = .ok ⟨some ⟨"", "boom", "", ""⟩, none, ""⟩)
    ∧ ((⟨"", "fooRequest"⟩ : XName) ≠ faultName
      ∧ unmarshalBody false
          (fun (_ : XName) (ts : List Tok) => some (((), ts) : Unit × List Tok))
          [Tok.start ⟨"", "fooRequest"⟩, Tok.endE bodyName]
          = .ok ⟨none, some (), "fooRequest"⟩) := by
  refine ⟨⟨rfl, by decide, ?_⟩, by decide, ?_⟩
  · exact (c1_first_element_discriminates
      (fun _ _ => none) [Tok.text " "] (by decide) faultName
      [Tok.start ⟨"", "faultstring"⟩, Tok.text "boom",
        Tok.endE ⟨"", "faultstring"⟩, Tok.endE faultName, Tok.endE bodyName]).1
      rfl ⟨"", "boom", "", ""⟩ [Tok.endE bodyName] [] bodyName []
      (by decide) (by decide) rfl
  · exact (c1_first_element_discriminates
      (fun _ ts => some ((), ts)) [] (by decide) ⟨"", "fooRequest"⟩
      [Tok.endE bodyName]).2
      (by decide) () [Tok.endE bodyName] [] bodyName [] rfl (by decide) rfl

/-- C2: a second top-level start element inside the Body after one
child element has been consumed fails with the multiple-elements
protocol-shape error, both when the first element was a Fault and when
it was application content. -/
theorem c2_second_element_fails {α}
    (dec : XName → List Tok → Option (α × List Tok))
    (lead : List Tok) (hlead : ∀ x ∈ lead, x.isText = true) (n : XName)
    (rest : List Tok) :
    (n = faultName →
      ∀ (f : Fault) (rest2 lead2 : List Tok) (m : XName) (tail2 : List Tok),
        decodeFault rest = some (f, rest2) →
        (∀ x ∈ lead2, x.isText = true) →
        rest2 = lead2 ++ Tok.start m :: tail2 →
        unmarshalBody false dec (lead ++ Tok.start n :: rest)
          = .error multipleElementsErr)
    ∧ (n ≠ faultName →
      ∀ (v : α) (rest2 lead2 : List Tok) (m : XName) (tail2 : List Tok),
        dec n rest = some (v, rest2) →
        (∀ x ∈ lead2, x.isText = true) →
        rest2 = lead2 ++ Tok.start m :: tail2 →
        unmarshalBody false dec (lead ++ Tok.start n :: rest)
          = .error multipleElementsErr) := by
  constructor
  · intro hn f rest2 lead2 m tail2 hdf hl2 hr2
    rw [unmarshalBody, if_neg (by simp),
      unmarshalBodyTokens_skip_text dec lead hlead, unmarshalBodyTokens,
      if_pos hn, hdf]
    show bodyLoopConsumed ⟨some f, none, ""⟩ rest2 = _
    rw [hr2, bodyLoopConsumed_skip_text _ lead2 hl2]
    rfl
  · intro hn v rest2 lead2 m tail2 hdec hl2 hr2
    rw [unmarshalBody, if_neg (by simp),
      unmarshalBodyTokens_skip_text dec lead hlead, unmarshalBodyTokens,
      if_neg hn, hdec]
    show bodyLoopConsumed ⟨none, some v, n.localName⟩ rest2 = _
    rw [hr2, bodyLoopConsumed_skip_text _ lead2 hl2]
    rfl

/-- Witness for c2_second_element_fails: two sibling content elements
and a Fault followed by a sibling element. -/
theorem c2_second_element_fails_witness :
    ((⟨"", "a"⟩ : XName) ≠ faultName
      ∧ unmarshalBody false
          (fun (_ : XName) (ts : List Tok) => some (((), ts) : Unit × List Tok))
          [Tok.start ⟨"", "a"⟩, Tok.start ⟨"", "b"⟩]
          = .error multipleElementsErr)
    ∧ (unmarshalBody false
        (fun (_ : XName) (_ : List Tok) => (none : Option (Unit × List Tok)))
        [Tok.start faultName, Tok.endE faultName, Tok.start ⟨"", "b"⟩]
        = .error multipleElementsErr) := by
  refine ⟨⟨by decide, ?_⟩, ?_⟩
  · exact (c2_second_element_fails (fun _ ts => some ((), ts)) [] (by decide)
      ⟨"", "a"⟩ [Tok.start ⟨"", "b"⟩]).2 (by decide) ()
      [Tok.start ⟨"", "b"⟩] [] ⟨"", "b"⟩ [] rfl (by decide) rfl
  · exact (c2_second_element_fails (fun _ _ => none) [] (by decide)
      faultName [Tok.endE faultName, Tok.start ⟨"", "b"⟩]).1 rfl
      {} [Tok.start ⟨"", "b"⟩] [] ⟨"", "b"⟩ [] (by decide) (by decide) rfl

/-!
Nil-destination guard (claim C10) and the dummy content objects the
callers install.
-/

/-- The value held in the Content field of a Body prepared for decode:
either the dummyContent placeholder struct from server.go or a real
caller-supplied destination. A Go nil interface is modelled by the
surrounding Option being none. -/
inductive ContentSlot (α : Type) where
  | dummy
  | dest (r : α)
  deriving DecidableEq

/-- Content installed by Client.Call before decoding the response
(client.go): the dummyContent placeholder when the caller passed a nil
response object, the caller object otherwise. -/
def clientInstallContent (response : Option α) : Option (ContentSlot α) :=
  match response with
  | none => some .dummy
  | some r => some (.dest r)

/-- Content installed by Server.ServeHTTP in the probe envelope
(server.go): always the dummyContent placeholder. -/
def serverProbeContent (α : Type) : Option (ContentSlot α) := some .dummy

/-- C10: with a nil Content destination, Body.UnmarshalXML fails with
the dedicated unmarshal error on every token stream, before consuming
any Body token; and both callers always install a non-nil Content (the
dummy placeholder when the caller supplied nothing), which is why the
guard never fires on their decode-and-discard paths. -/
theorem c10_nil_content_guard :
    (∀ (α : Type) (dec : XName → List Tok → Option (α × List Tok)) (ts : List Tok),
        unmarshalBody true dec ts = .error nilContentErr)
      ∧ (∀ (α : Type) (response : Option α),
          (clientInstallContent response).isSome = true)
      ∧ (∀ α : Type, (serverProbeContent α).isSome = true) := by
  refine ⟨fun α dec ts => rfl, fun α response => ?_, fun α => rfl⟩
  cases response <;> rfl

/-!
Token-level namespace translation (claim C3).

On the wire the translation is the byte substitution replaceSoap11to12
and replaceSoap12to11; on any serialized token stream whose text never
contains a namespace URI, the substitution acts exactly by renaming
the namespace of every element name, which is what these functions do.
-/

/-- Rename one namespace tag. -/
def renameSpace (src dst : String) (n : XName) : XName :=
  if n.space = src then ⟨dst, n.localName⟩ else n

/-- Rename the namespace tag of a token. -/
def Tok.rename (src dst : String) : Tok → Tok
  | .start n => .start (renameSpace src dst n)
  | .endE n => .endE (renameSpace src dst n)
  | .text s => .text s

/-- Token-level image of replaceSoap11to12. -/
def translate11to12 (ts : List Tok) : List Tok :=
  ts.map (Tok.rename NamespaceSoap11 NamespaceSoap12)

/-- Token-level image of replaceSoap12to11. -/
def translate12to11 (ts : List Tok) : List Tok :=
  ts.map (Tok.rename NamespaceSoap12 NamespaceSoap11)

theorem renameSpace_roundtrip (n : XName) (h : n.space ≠ NamespaceSoap12) :
    renameSpace NamespaceSoap12 NamespaceSoap11
      (renameSpace NamespaceSoap11 NamespaceSoap12 n) = n := by
  cases n with
  | mk sp ln =>
    by_cases hsp : sp = NamespaceSoap11
    · subst hsp
      simp [renameSpace]
    · have hsp2 : sp ≠ NamespaceSoap12 := by simpa using h
      simp [renameSpace, hsp, hsp2]

theorem tokRename_roundtrip (x : Tok) (h : x.space ≠ NamespaceSoap12) :
    Tok.rename NamespaceSoap12 NamespaceSoap11
      (Tok.rename NamespaceSoap11 NamespaceSoap12 x) = x := by
  cases x with
  | start n => rw [Tok.rename, Tok.rename, renameSpace_roundtrip n h]
  | endE n => rw [Tok.rename, Tok.rename, renameSpace_roundtrip n h]
  | text s => rfl

theorem translate_roundtrip (ts : List Tok)
    (h : ∀ x ∈ ts, x.space ≠ NamespaceSoap12) :
    translate12to11 (translate11to12 ts) = ts := by
  induction ts with
  | nil => rfl
  | cons x ts ih =>
    rw [translate11to12, translate12to11, List.map_cons, List.map_cons,
      tokRename_roundtrip x (h x (by simp))]
    have := ih (fun y hy => h y (by simp [hy]))
    rw [translate11to12, translate12to11] at this
    rw [this]

theorem decodeEnvelope_encodeEnvelope {α}
    (dec : XName → List Tok → Option (α × List Tok)) (nm : XName)
    (tl : List Tok) (v : α) (hnf : nm ≠ faultName)
    (hdec : ∀ rest, dec nm (tl ++ rest) = some (v, rest)) :
    decodeEnvelope false dec (encodeEnvelope (Tok.start nm :: tl))
      = .ok ⟨none, some v, nm.localName⟩ := by
  have hshape : encodeEnvelope (Tok.start nm :: tl)
      = Tok.start envelopeName :: Tok.start headerName :: Tok.endE headerName ::
          Tok.start bodyName :: Tok.start nm
            :: (tl ++ [Tok.endE bodyName, Tok.endE envelopeName]) := by
    simp [encodeEnvelope]
  rw [hshape]
  show unmarshalBodyTokens dec
      (Tok.start nm :: (tl ++ [Tok.endE bodyName, Tok.endE envelopeName])) = _
  rw [unmarshalBodyTokens, if_neg hnf, hdec]
  rfl

/-- C3: a request encoded as the sole Body content of an envelope and
decoded back with its own codec yields the original value (with its
element local name recorded as the body content type), both on the
SOAP 1.1 wire form and, after translating the envelope namespace to
1.2 and back to 1.1 before decode, on the SOAP 1.2 wire form. -/
theorem c3_roundtrip {α}
    (dec : XName → List Tok → Option (α × List Tok)) (nm : XName)
    (tl : List Tok) (v : α) (hnf : nm ≠ faultName)
    (hdec : ∀ rest, dec nm (tl ++ rest) = some (v, rest))
    (hns : ∀ x ∈ Tok.start nm :: tl, x.space ≠ NamespaceSoap12) :
    decodeEnvelope false dec (encodeEnvelope (Tok.start nm :: tl))
        = .ok ⟨none, some v, nm.localName⟩
      ∧ decodeEnvelope false dec
          (translate12to11 (translate11to12 (encodeEnvelope (Tok.start nm :: tl))))
        = .ok ⟨none, some v, nm.localName⟩ := by
  have h1 := decodeEnvelope_encodeEnvelope dec nm tl v hnf hdec
  refine ⟨h1, ?_⟩
  have hmem : ∀ x ∈ encodeEnvelope (Tok.start nm :: tl),
      x.space ≠ NamespaceSoap12 := by
    intro x hx
    rw [encodeEnvelope] at hx
    rcases List.mem_append.mp hx with hx1 | hx2
    · rcases List.mem_append.mp hx1 with hx3 | hx4
      · simp only [List.mem_cons, List.not_mem_nil, or_false] at hx3
        rcases hx3 with rfl | rfl | rfl | rfl <;> decide
      · exact hns x hx4
    · simp only [List.mem_cons, List.not_mem_nil, or_false] at hx2
      rcases hx2 with rfl | rfl <;> decide
  rw [translate_roundtrip _ hmem]
  exact h1

/-- The fooRequest payload used by the repository tests: a single
string field Foo inside a fooRequest element. -/
structure FooRequest where
  foo : String
  deriving DecidableEq, Repr

/-- Token encoding of FooRequest, the shape xml.MarshalIndent produces
for it. -/
def encodeFooRequest (r : FooRequest) : List Tok :=
  [Tok.start ⟨"", "fooRequest"⟩, Tok.start ⟨"", "Foo"⟩, Tok.text r.foo,
    Tok.endE ⟨"", "Foo"⟩, Tok.endE ⟨"", "fooRequest"⟩]

/-- Token decoding of FooRequest given its already-consumed start
element name. -/
def decodeFooRequest (n : XName) (ts : List Tok) : Option (FooRequest × List Tok) :=
  match ts with
  | Tok.start m :: Tok.text s :: Tok.endE _ :: Tok.endE _ :: rest =>
    if n = ⟨"", "fooRequest"⟩ ∧ m = ⟨"", "Foo"⟩ then some (⟨s⟩, rest) else none
  | _ => none

/-!
Client.Call response handling (claims C6 and C7), from client.go
(part_003): the multipart branch searches for the soapy part, the
single-part branch classifies the raw body.
-/

/-- soapPrefixTagLC from client.go. -/
def soapPrefixTagLC : List Char := "<soap".toList

/-- soapPrefixTagUC from client.go. -/
def soapPrefixTagUC : List Char := "<SOAP".toList

/-- The per-part test of the multipart loop in Client.Call: does the
slurped part content begin with one of the two SOAP opening tags. -/
def isSoapyPart (slurp : List Char) : Bool :=
  soapPrefixTagLC.isPrefixOf slurp || soapPrefixTagUC.isPrefixOf slurp

/-- Outcome of a phase of Client.Call: either the raw envelope bytes
to continue with, or a terminal failure on which Call returns a nil
http.Response together with the error message. -/
inductive CallPhase where
  | proceed (rawBody : List Char)
  | failNilResp (errMsg : String)
  | okNoDecode
  deriving DecidableEq, Repr

/-- The multipart loop of Client.Call: iterate the parts in order and
return the first whose content is soapy; exhausting all parts is the
hard failure of client.go (note the message text of the source). -/
def callMultipartPhase : List (List Char) → CallPhase
  | [] => .failNilResp "multipart message does contain a soapy part"
  | p :: rest => if isSoapyPart p then .proceed p else callMultipartPhase rest

/-- The single-part branch of Client.Call: an empty body is terminal
success without any decode (okNoDecode — Call returns the
http.Response and a nil error, never touching the caller response
object); a body with no SOAP tag anywhere is the not-a-SOAP-message
failure; otherwise the bytes continue to the decode step. -/
def callSinglePartPhase (rawBody : List Char) : CallPhase :=
  if rawBody.length = 0 then .okNoDecode
  else if !(containsSeq soapPrefixTagLC rawBody || containsSeq soapPrefixTagUC rawBody) then
    .failNilResp ("This is not a SOAP-Message: \n" ++ String.mk rawBody)
  else
    .proceed rawBody

/-- C6 counterexample: on a multipart response with no soapy part the
error message of the source (asserted verbatim by the repository test)
is "multipart message does contain a soapy part", not the
"does not contain" wording of the claim. -/
theorem c6_multipart_error_message_has_no_not :
    callMultipartPhase ["<wrong></wrong>".toList]
        = .failNilResp "multipart message does contain a soapy part"
      ∧ "multipart message does contain a soapy part"
          ≠ "multipart message does not contain a soapy part" := by
  exact ⟨by decide, by decide⟩

/-- C6 (amended): the multipart branch takes as envelope bytes the
content of the first part in part order beginning with a SOAP opening
tag, and when every part is exhausted without a match it fails with a
nil http.Response and the error message exactly
"multipart message does contain a soapy part". -/
theorem c6_multipart_extraction (parts pre post : List (List Char)) (p : List Char) :
    (parts = pre ++ p :: post →
      (∀ q ∈ pre, isSoapyPart q = false) →
      isSoapyPart p = true →
      callMultipartPhase parts = .proceed p)
    ∧ ((∀ q ∈ parts, isSoapyPart q = false) →
      callMultipartPhase parts
        = .failNilResp "multipart message does contain a soapy part") := by
  constructor
  · intro hparts hpre hp
    subst hparts
    induction pre with
    | nil =>
      rw [List.nil_append, callMultipartPhase, if_pos hp]
    | cons q pre ih =>
      rw [List.cons_append, callMultipartPhase,
        if_neg (by rw [hpre q (by simp)]; simp)]
      exact ih (fun q' hq' => hpre q' (by simp [hq']))
  · intro hall
    induction parts with
    | nil => rfl
    | cons q parts ih =>
      rw [callMultipartPhase, if_neg (by rw [hall q (by simp)]; simp)]
      exact ih (fun q' hq' => hall q' (by simp [hq']))

/-- Witness for c6_multipart_extraction: one non-soapy part followed
by a soapy part, and a list of two non-soapy parts. -/
theorem c6_multipart_extraction_witness :
    (callMultipartPhase ["<wrong/>".toList, "<soap:Envelope/>".toList]
        = .proceed "<soap:Envelope/>".toList)
    ∧ callMultipartPhase ["<wrong/>".toList, "plain".toList]
        = .failNilResp "multipart message does contain a soapy part" := by
  constructor
  · exact (c6_multipart_extraction
      ["<wrong/>".toList, "<soap:Envelope/>".toList]
      ["<wrong/>".toList] [] "<soap:Envelope/>".toList).1
      rfl (by decide) (by decide)
  · exact (c6_multipart_extraction
      ["<wrong/>".toList, "plain".toList] [] [] []).2 (by decide)

/-- C7: a single-part response with an empty body is terminal success:
Call returns the http.Response with a nil error and never reaches the
decode step, so the caller-supplied response object is untouched. -/
theorem c7_empty_body_success :
    callSinglePartPhase [] = .okNoDecode
      ∧ ∀ raw : List Char, callSinglePartPhase raw = .okNoDecode → raw = [] := by
  constructor
  · rfl
  · intro raw h
    match raw with
    | [] => rfl
    | c :: t =>
      rw [callSinglePartPhase] at h
      simp only [List.length_cons, Nat.succ_ne_zero, if_false] at h
      by_cases hc : (containsSeq soapPrefixTagLC (c :: t)
          || containsSeq soapPrefixTagUC (c :: t)) = true
      · rw [hc] at h
        simp at h
      · rw [Bool.not_eq_true] at hc
        rw [hc] at h
        simp at h

/-- Witness for c7_empty_body_success at the empty raw body. -/
theorem c7_empty_body_success_witness :
    callSinglePartPhase [] = CallPhase.okNoDecode ∧ ([] : List Char) = [] :=
  ⟨c7_empty_body_success.1, c7_empty_body_success.2 [] (by decide)⟩

/-!
Server.ServeHTTP routing (claim C8) and the post-handler write step
(claim C9), from server.go.
-/

/-- The three-level handler registry of server.go: path, then
SOAPAction, then body element name (message type), each level a Go
map modelled as an association list. -/
abbrev HandlerRegistry (χ : Type) := List (String × List (String × List (String × χ)))

/-- How ServeHTTP answers a POST before invoking a handler: either a
Fault envelope with the given faultstring, or dispatch to the resolved
operation handler. -/
inductive ServeOutcome (χ : Type) where
  | fault (faultString : String)
  | dispatch (handler : χ) (contentType : String)
  deriving DecidableEq, Repr

/-- Go %q quoting of a name without escape-worthy characters. -/
def goQuote (s : String) : String := "\"" ++ s ++ "\""

/-- Decoding a body element into the dummyContent probe struct:
consume the element subtree and keep nothing. -/
def dummyDec (_ : XName) (ts : List Tok) : Option (Unit × List Tok) :=
  match skipDepth 0 ts with
  | none => none
  | some r => some ((), r)

/-- The routing prefix of ServeHTTP on a POST, after namespace
normalization: resolve the URL path, then the SOAPAction, then probe
the body element name and resolve it, each missing level producing its
own Fault; on success dispatch to the registered operation handler. -/
def serveHTTPRoute {χ} (handlers : HandlerRegistry χ) (path action : String)
    (reqToks : List Tok) : ServeOutcome χ :=
  match List.lookup path handlers with
  | none => .fault ("unknown path " ++ goQuote path)
  | some pathHandlers =>
    match List.lookup action pathHandlers with
    | none => .fault ("unknown action " ++ goQuote action)
    | some actionHandlers =>
      match decodeEnvelope false dummyDec reqToks with
      | .error e => .fault ("could not probe soap body content:: " ++ e)
      | .ok probed =>
        match List.lookup probed.soapBodyContentType actionHandlers with
        | none => .fault ("no action handler for content type: "
            ++ goQuote probed.soapBodyContentType)
        | some h => .dispatch h probed.soapBodyContentType

theorem skipDepth_text (inner : List Tok) (h : ∀ x ∈ inner, x.isText = true)
    (e : XName) (r : List Tok) :
    skipDepth 0 (inner ++ Tok.endE e :: r) = some r := by
  induction inner with
  | nil => rfl
  | cons x inner ih =>
    match x, h x (by simp) with
    | .text s, _ =>
      rw [List.cons_append, skipDepth]
      exact ih (fun y hy => h y (by simp [hy]))

/-- C8: routing resolves path first, then SOAPAction, then the probed
body element name, each missing level yielding its own distinct Fault;
and when the probed element local name has no registry entry under the
matched path and action, the faultstring is exactly
no action handler for content type: quoted name. -/
theorem c8_routing_order {χ} (handlers : HandlerRegistry χ) (path action : String) :
    (∀ reqToks, List.lookup path handlers = none →
        serveHTTPRoute handlers path action reqToks
          = .fault ("unknown path " ++ goQuote path))
    ∧ (∀ reqToks pathHandlers,
        List.lookup path handlers = some pathHandlers →
        List.lookup action pathHandlers = none →
        serveHTTPRoute handlers path action reqToks
          = .fault ("unknown action " ++ goQuote action))
    ∧ (∀ (pathHandlers : List (String × List (String × χ))) actionHandlers
        (n : XName) (inner : List Tok),
        List.lookup path handlers = some pathHandlers →
        List.lookup action pathHandlers = some actionHandlers →
        n ≠ faultName →
        (∀ x ∈ inner, x.isText = true) →
        List.lookup n.localName actionHandlers = none →
        serveHTTPRoute handlers path action
            (encodeEnvelope (Tok.start n :: (inner ++ [Tok.endE n])))
          = .fault ("no action handler for content type: \""
              ++ n.localName ++ "\"")) := by
  refine ⟨fun reqToks h => ?_, fun reqToks ph h1 h2 => ?_,
    fun ph ah n inner h1 h2 hnf hinner h3 => ?_⟩
  · rw [serveHTTPRoute, h]
  · rw [serveHTTPRoute, h1]
    show (match List.lookup action ph with
      | none => ServeOutcome.fault ("unknown action " ++ goQuote action)
      | some actionHandlers => _) = _
    rw [h2]
  · have hdec : ∀ rest, dummyDec n ((inner ++ [Tok.endE n]) ++ rest)
        = some ((), rest) := by
      intro rest
      rw [dummyDec, List.append_assoc, List.singleton_append,
        skipDepth_text inner hinner]
    have hprobe := decodeEnvelope_encodeEnvelope dummyDec n
      (inner ++ [Tok.endE n]) () hnf hdec
    rw [serveHTTPRoute, h1]
    show (match List.lookup action ph with
      | none => ServeOutcome.fault ("unknown action " ++ goQuote action)
      | some actionHandlers => _) = _
    rw [h2]
    show (match decodeEnvelope false dummyDec
        (encodeEnvelope (Tok.start n :: (inner ++ [Tok.endE n]))) with
      | Except.error e =>
          ServeOutcome.fault ("could not probe soap body content:: " ++ e)
      | Except.ok probed => _) = _
    rw [hprobe]
    show (match List.lookup n.localName ah with
      | none => ServeOutcome.fault ("no action handler for content type: "
          ++ goQuote n.localName)
      | some h => _) = _
    rw [h3]
    rfl

/-- Witness for c8_routing_order: the registry of the repository test
(path /pathTo, action testPostAction, element fooRequest) probed with
a barRequest body, and the two missing-level faults. -/
theorem c8_routing_order_witness :
    serveHTTPRoute [("/pathTo", [("testPostAction", [("fooRequest", 0)])])]
        "/other" "testPostAction" []
        = .fault ("unknown path " ++ goQuote "/other")
      ∧ serveHTTPRoute [("/pathTo", [("testPostAction", [("fooRequest", 0)])])]
          "/pathTo" "otherAction" []
          = .fault ("unknown action " ++ goQuote "otherAction")
      ∧ serveHTTPRoute [("/pathTo", [("testPostAction", [("fooRequest", 0)])])]
          "/pathTo" "testPostAction"
          (encodeEnvelope (Tok.start ⟨"", "barRequest"⟩
            :: ([Tok.text "x"] ++ [Tok.endE ⟨"", "barRequest"⟩])))
          = .fault "no action handler for content type: \"barRequest\"" := by
  refine ⟨?_, ?_, ?_⟩
  · exact (c8_routing_order
      [("/pathTo", [("testPostAction", [("fooRequest", 0)])])]
      "/other" "testPostAction").1 [] (by decide)
  · exact (c8_routing_order
      [("/pathTo", [("testPostAction", [("fooRequest", 0)])])]
      "/pathTo" "otherAction").2.1 [] [("testPostAction", [("fooRequest", 0)])]
      (by decide) (by decide)
  · exact (c8_routing_order
      [("/pathTo", [("testPostAction", [("fooRequest", 0)])])]
      "/pathTo" "testPostAction").2.2 [("testPostAction", [("fooRequest", 0)])]
      [("fooRequest", 0)] ⟨"", "barRequest"⟩ [Tok.text "x"]
      (by decide) (by decide) (by decide) (by decide) (by decide)

/-- The wrapping responseWriter of server.go: any write through it
sets the outputStarted flag. -/
structure ResponseWriterState where
  outputStarted : Bool
  deriving DecidableEq, Repr

/-- responseWriter.Write from server.go: mark output as started and
pass the bytes through. -/
def responseWriterWrite (_ : ResponseWriterState) (b : List Char) :
    ResponseWriterState × List Char :=
  (⟨true⟩, b)

/-- Server.handleError from server.go: marshal a Fault envelope
carrying the error text and write it; if even that marshal fails,
write a plain diagnostic line. Returns the writes performed. -/
def handleErrorWrites (marshalFault : String → Except String (List Char))
    (e : String) : List (List Char) :=
  match marshalFault e with
  | .ok xmlBytes => [xmlBytes]
  | .error xmlErr =>
    [("could not marshal soap fault for: " ++ e ++ " xmlError: "
      ++ xmlErr ++ "\n").toList]

/-- The writes Server.ServeHTTP performs itself after the invoked
handler returns: a handler error goes through handleError regardless
of the outputStarted flag; otherwise the router encodes and writes the
response envelope only when the handler did not already write output
(and, on a marshal failure, writes the fault followed by the nil byte
slice, since that branch does not return early). -/
def serverAfterHandler (outputStarted : Bool) (handlerErr : Option String)
    (marshalFault : String → Except String (List Char))
    (marshalResponse : Except String (List Char)) : List (List Char) :=
  match handlerErr with
  | some e => handleErrorWrites marshalFault e
  | none =>
    if outputStarted then []
    else
      match marshalResponse with
      | .ok xmlBytes => [xmlBytes]
      | .error me =>
        handleErrorWrites marshalFault ("could not marshal response:: " ++ me)
          ++ [[]]

/-- A concrete fault marshaller for the counterexample. -/
def sampleFaultMarshal (e : String) : Except String (List Char) :=
  .ok ("<Envelope><Body><Fault><faultstring>" ++ e
    ++ "</faultstring></Fault></Body></Envelope>").toList

/-- C9 counterexample: when the handler has written output (flag set)
but returns an error, the router still writes an enveloped Fault
response through handleError — the outputStarted flag only guards the
success path. -/
theorem c9_handler_error_writes_despite_output :
    serverAfterHandler true (some "handler failed") sampleFaultMarshal (.ok [])
      ≠ [] := by
  decide

/-- C9 (amended): every write through the wrapping responseWriter sets
the outputStarted flag, and when the handler returns without error and
the flag is set the router writes no enveloped response of its own;
when the handler returns an error the router writes a Fault envelope
regardless of the flag. -/
theorem c9_output_started_suppresses_router_write :
    (∀ (w : ResponseWriterState) (b : List Char),
        (responseWriterWrite w b).1.outputStarted = true)
      ∧ (∀ (marshalFault : String → Except String (List Char))
          (marshalResponse : Except String (List Char)),
          serverAfterHandler true none marshalFault marshalResponse = [])
      ∧ (∀ (marshalFault : String → Except String (List Char))
          (marshalResponse : Except String (List Char)) (e : String),
          serverAfterHandler true (some e) marshalFault marshalResponse
            = handleErrorWrites marshalFault e) :=
  ⟨fun _ _ => rfl, fun _ _ => rfl, fun _ _ _ => rfl⟩

/-- Witness for c3_roundtrip at the FooRequest value of the tests. -/
theorem c3_roundtrip_witness :
    decodeEnvelope false decodeFooRequest
        (encodeEnvelope (encodeFooRequest ⟨"hello world"⟩))
        = .ok ⟨none, some ⟨"hello world"⟩, "fooRequest"⟩
      ∧ decodeEnvelope false decodeFooRequest
          (translate12to11 (translate11to12
            (encodeEnvelope (encodeFooRequest ⟨"hello world"⟩))))
        = .ok ⟨none, some ⟨"hello world"⟩, "fooRequest"⟩ :=
  c3_roundtrip decodeFooRequest ⟨"", "fooRequest"⟩
    [Tok.start ⟨"", "Foo"⟩, Tok.text "hello world", Tok.endE ⟨"", "Foo"⟩,
      Tok.endE ⟨"", "fooRequest"⟩]
    ⟨"hello world"⟩ (by decide) (fun rest => rfl) (by decide)

end Soap
